import Mathlib

/-!
# Share-link operations of `baidupcs/share.go`

A shallow embedding of the share operations (`ShareSet`, `ShareInfo`, `ShareVarify`,
`ShareParse`, `ShareTransfer`, `ShareList`) together with the record helpers `Clean`
and `HasPasswd`.

Conventions of the embedding:

* Go `string` values are Lean `String`s; the regular-expression and number-parsing
  helpers work on the character list `String.data`.
* Go `int64`/`int` values are Lean `Int`s; the 64-bit limits of `strconv.ParseInt`
  are explicit constants.
* A Go `pcserror.Error` result that may be `nil` is an `Option PanErrorInfo`.
* Pointers that the code dereferences without ever sharing them are embedded by value;
  the nil-able record pointers of `ShareRecordInfoList` are `Option`s and the nil-able
  list itself is an `Option` of a list.
* The request builders (`PrepareShare*`), the JSON envelope decoder
  (`pcserror.HandleJSONParse`), the HTML parser (`goquery`) and the operation-name
  constants live outside `share.go`; they are fields of the receiver structure
  `BaiduPCS`, so every theorem holds for all of their possible behaviours.
-/

namespace Baidupcs

/-! ## Data model -/

/-- Modelled from the spec: the error classification of the `pcserror` package, which is
not part of `share.go`.  The spec distinguishes transport errors, decode errors and the
semantic "others" errors raised locally; a freshly constructed error info carries no
classification yet. -/
inductive ErrType where
  | ErrorTypeNoError
  | ErrTypeNetError
  | ErrTypeJSONParseError
  | ErrTypeRemoteError
  | ErrTypeOthers
  deriving DecidableEq, Repr

/-- Modelled from the spec: `pcserror.PanErrorInfo`, "a decoded service-error envelope with
an error classification and an underlying cause; constructed per logical operation name".
`Err` is the message of the underlying Go `error` (`none` for `nil`), `ErrNo` the numeric
code decoded from the envelope. -/
structure PanErrorInfo where
  Operation : String
  ErrType : ErrType
  Err : Option String
  ErrNo : Int
  deriving DecidableEq, Repr

/-- Modelled from the spec: `pcserror.NewPanErrorInfo`, which constructs the error info of
one logical operation with no classification and no cause. -/
def NewPanErrorInfo (operation : String) : PanErrorInfo :=
  { Operation := operation, ErrType := ErrType.ErrorTypeNoError, Err := none, ErrNo := 0 }

/-- Go `ShareOption`: optional password and validity period. -/
structure ShareOption where
  Password : String
  Period : Int
  deriving DecidableEq, Repr

/-- Go `Shared`: the link and the identifier of a created share. -/
structure Shared where
  Link : String
  ShareID : Int
  deriving DecidableEq, Repr

/-- Go `ShareRecordInfo`: one listed share. -/
structure ShareRecordInfo where
  ShareID : Int
  FsIds : List Int
  Passwd : String
  Shortlink : String
  Status : Int
  TypicalCategory : Int
  TypicalPath : String
  deriving DecidableEq, Repr

/-- Go `ShareRecordInfoList` is `[]*ShareRecordInfo`: entries may be nil. -/
abbrev ShareRecordInfoList := List (Option ShareRecordInfo)

/-- Go `sharePSetJSON`: the decode target of `ShareSet`. -/
structure sharePSetJSON where
  Shared : Shared
  PanErrorInfo : PanErrorInfo
  deriving DecidableEq, Repr

/-- Go `shareListJSON`: the decode target of `ShareList`; `List` is `none` for a nil slice. -/
structure shareListJSON where
  List : Option ShareRecordInfoList
  PanErrorInfo : PanErrorInfo
  deriving DecidableEq, Repr

/-- Go `ShareFileInfo`: the identity of a shared resource scraped from the share page. -/
structure ShareFileInfo where
  SourceID : String
  ShareID : Int
  FsIds : List Int
  ShareUK : Int
  deriving DecidableEq, Repr

/-- Go `transferJSON`: the decode target of `ShareTransfer`. -/
structure transferJSON where
  ErrorNo : Int
  PanErrorInfo : PanErrorInfo
  deriving DecidableEq, Repr

/-- Go `ErrShareLinkNotFound = errors.New("未找到分享链接")`, identified by its message. -/
def ErrShareLinkNotFound : String := "未找到分享链接"

/-- One `http.Cookie` of a response, reduced to the two fields the code reads. -/
structure Cookie where
  Name : String
  Value : String
  deriving DecidableEq, Repr

/-- An `http.Response`, reduced to the result of `resp.Cookies()`. -/
structure Response where
  Cookies : List Cookie
  deriving DecidableEq, Repr

/-- A `goquery` document, reduced to what `Find("html").Find("body").Find("script")`
selects: the texts of the script blocks inside the body, in document order. -/
structure Document where
  bodyScripts : List String
  deriving DecidableEq, Repr

/-- The receiver `*BaiduPCS` with the collaborators of `share.go` that are defined outside
of it.  Each `Prepare*` method returns its values together with the `pcserror.Error`
(`none` for nil); `HandleJSONParse*` is `pcserror.HandleJSONParse` at the three decode
targets and returns the target after decoding together with its error;
`NewDocumentFromReader` is `goquery.NewDocumentFromReader` (`none` for a non-nil `err`).
The cookie jar written by `ShareTransfer` is passed to `PrepareShareTransfer` explicitly. -/
structure BaiduPCS where
  OperationShareSet : String
  OperationShareVarify : String
  OperationShareParse : String
  OperationShareTransfer : String
  OperationShareList : String
  PrepareSharePSet : List String → Int → String → String × Option PanErrorInfo
  PrepareShareVerify : String → String → Response × String × Option PanErrorInfo
  PrepareShareParse : String → String → Response × String × Option PanErrorInfo
  PrepareShareTransfer : List Cookie → ShareFileInfo → String → String × Option PanErrorInfo
  PrepareShareList : Int → String × Option PanErrorInfo
  HandleJSONParseSet : String → String → sharePSetJSON → sharePSetJSON × Option PanErrorInfo
  HandleJSONParseList : String → String → shareListJSON → shareListJSON × Option PanErrorInfo
  HandleJSONParseTransfer : String → String → transferJSON → transferJSON × Option PanErrorInfo
  NewDocumentFromReader : String → Option Document

/-! ## Record helpers (`share.go` lines 64-88) -/

/-- Go `(*ShareRecordInfo).Clean`: the password sentinel "0" becomes the empty string. -/
def ShareRecordInfo.Clean (sri : ShareRecordInfo) : ShareRecordInfo :=
  if sri.Passwd = "0" then { sri with Passwd := "" } else sri

/-- Go `(*ShareRecordInfo).HasPasswd`. -/
def ShareRecordInfo.HasPasswd (sri : ShareRecordInfo) : Bool :=
  sri.Passwd != "" && sri.Passwd != "0"

/-- Go `(*ShareRecordInfoList).Clean`: cleans every non-nil entry, skips nil entries. -/
def ShareRecordInfoList.Clean : ShareRecordInfoList → ShareRecordInfoList
  | [] => []
  | none :: rest => none :: ShareRecordInfoList.Clean rest
  | some sri :: rest => some sri.Clean :: ShareRecordInfoList.Clean rest

/-! ## `strconv.ParseInt(s, 10, 64)` -/

/-- The two error kinds of `strconv`. -/
inductive NumError where
  | ErrSyntax
  | ErrRange
  deriving DecidableEq, Repr

/-- Go `maxVal` of `ParseUint` at bit size 64. -/
def maxUint64 : Nat := 18446744073709551615

/-- The digit loop of `strconv.ParseUint(s, 10, 64)` with accumulator `n`; the machine
arithmetic of `uint64` is explicit. -/
def ParseUintLoop : List Char → Nat → Nat × Option NumError
  | [], n => (n, none)
  | c :: cs, n =>
    if 48 ≤ c.toNat ∧ c.toNat ≤ 57 then
      if n ≥ maxUint64 / 10 + 1 then (maxUint64, some NumError.ErrRange)
      else
        let n10 := (n * 10) % 2 ^ 64
        let n1 := (n10 + (c.toNat - 48)) % 2 ^ 64
        if n1 < n10 ∨ n1 > maxUint64 then (maxUint64, some NumError.ErrRange)
        else ParseUintLoop cs n1
    else (0, some NumError.ErrSyntax)

/-- Go `strconv.ParseUint(s, 10, 64)`. -/
def ParseUint (s : List Char) : Nat × Option NumError :=
  match s with
  | [] => (0, some NumError.ErrSyntax)
  | _ :: _ => ParseUintLoop s 0

/-- Go `strconv.ParseInt(s, 10, 64)`: the value and the error (`none` for nil).  As in the
standard library, a syntax error comes with the value 0 and a range error with the integer
of maximum magnitude of the sign, `1<<63 - 1` or `-1<<63`. -/
def ParseInt (s : List Char) : Int × Option NumError :=
  match s with
  | [] => (0, some NumError.ErrSyntax)
  | c :: cs =>
    let neg : Bool := c = Char.ofNat 45
    let s1 := if c = Char.ofNat 43 ∨ c = Char.ofNat 45 then cs else c :: cs
    let r := ParseUint s1
    if r.2 = some NumError.ErrSyntax then (0, r.2)
    else if neg = false ∧ r.1 ≥ 2 ^ 63 then (2 ^ 63 - 1, some NumError.ErrRange)
    else if neg = true ∧ r.1 > 2 ^ 63 then (-(2 ^ 63), some NumError.ErrRange)
    else (if neg then -(r.1 : Int) else (r.1 : Int), none)

/-! ## The regular expressions of `ShareParse` -/

/-- Consumes the literal `lit` at the head of `s` and returns what follows it. -/
def dropLiteral : List Char → List Char → Option (List Char)
  | [], s => some s
  | _ :: _, [] => none
  | k :: ks, c :: cs => if k = c then dropLiteral ks cs else none

/-- Go `regexp.MatchString` for a pattern that is the literal `lit`: does `lit` occur in `s`. -/
def MatchString (lit : List Char) : List Char → Bool
  | [] => (dropLiteral lit []).isSome
  | c :: cs => (dropLiteral lit (c :: cs)).isSome || MatchString lit cs

/-- A match of the pattern `key([0-9]+),` anchored at the head of `s`: the captured digits
and the length of the whole match.  The greedy digit run is the only way to match, since
the character that must follow the run is not a digit. -/
def matchAt (key s : List Char) : Option (List Char × Nat) :=
  match dropLiteral key s with
  | none => none
  | some r =>
    match r.dropWhile Char.isDigit with
    | [] => none
    | c :: _ =>
      if r.takeWhile Char.isDigit ≠ [] ∧ c = Char.ofNat 44 then
        some (r.takeWhile Char.isDigit, key.length + (r.takeWhile Char.isDigit).length + 1)
      else none

/-- Go `re.FindStringSubmatch(s)` for the pattern `key([0-9]+),`: the capture group of the
leftmost match (`matchedValues[1]`), `none` when the result has fewer than two entries. -/
def FindStringSubmatch (key : List Char) : List Char → Option (List Char)
  | [] => none
  | c :: cs =>
    match matchAt key (c :: cs) with
    | some m => some m.1
    | none => FindStringSubmatch key cs

/-- The scan of `re.FindAllStringSubmatch(s, -1)`: `skip` characters of the previous match
are still to be passed over before the next match may start. -/
def FindAllStringSubmatchFrom (key : List Char) : Nat → List Char → List (List Char)
  | _, [] => []
  | skip + 1, _ :: cs => FindAllStringSubmatchFrom key skip cs
  | 0, c :: cs =>
    match matchAt key (c :: cs) with
    | some m => m.1 :: FindAllStringSubmatchFrom key (m.2 - 1) cs
    | none => FindAllStringSubmatchFrom key 0 cs

/-- Go `re.FindAllStringSubmatch(s, -1)` for the pattern `key([0-9]+),`: the capture groups
(`matchedValueList[i][1]`) of the successive non-overlapping matches, left to right. -/
def FindAllStringSubmatch (key s : List Char) : List (List Char) :=
  FindAllStringSubmatchFrom key 0 s

/-- The literal of the marker pattern `yunData\.setData\(\{`. -/
def markerLiteral : List Char := "yunData.setData(\x7b".data

/-- The literal prefix of the pattern `"uk":([0-9]+),`. -/
def ukKey : List Char := "\"uk\":".data

/-- The literal prefix of the pattern `"shareid":([0-9]+),`. -/
def shareidKey : List Char := "\"shareid\":".data

/-- The literal prefix of the pattern `"fs_id":([0-9]+),`. -/
def fsIdKey : List Char := "\"fs_id\":".data

/-- Modelled from the spec: `removeDuplicateElement` is defined elsewhere in the repository;
the spec says "the file-id set is deduplicated (order-preservation not required) before
being stored".  The model keeps the first occurrence of every value. -/
def removeDuplicateElement : List Int → List Int
  | [] => []
  | x :: xs => x :: (removeDuplicateElement xs).filter (fun y => y ≠ x)

/-! ## The operations -/

/-- The `Each` callback over the script blocks (lines 198-205 and 260-267): `matched` is
assigned at every block, `content` only at a matching block. -/
def scanScripts (scripts : List String) : Bool × String :=
  scripts.foldl
    (fun (st : Bool × String) (text : String) =>
      let matched := MatchString markerLiteral text.data
      if matched then (matched, text) else (matched, st.2))
    (false, "")

/-- The field extraction from the matched block (lines 207-226 and 269-288, which are
identical): every `ParseInt` error is discarded and its value is stored. -/
def extractFields (shareFileInfo : ShareFileInfo) (content : String) : ShareFileInfo :=
  let s1 : ShareFileInfo :=
    match FindStringSubmatch ukKey content.data with
    | some v => { shareFileInfo with ShareUK := (ParseInt v).1 }
    | none => shareFileInfo
  let s2 : ShareFileInfo :=
    match FindStringSubmatch shareidKey content.data with
    | some v => { s1 with ShareID := (ParseInt v).1 }
    | none => s1
  let matchedValueList := FindAllStringSubmatch fsIdKey content.data
  if matchedValueList.length ≥ 1 then
    { s2 with FsIds := removeDuplicateElement (matchedValueList.map (fun v => (ParseInt v).1)) }
  else s2

/-- Go `(*BaiduPCS).ShareSet` (lines 91-121); `option = none` is the nil option. -/
def ShareSet (pcs : BaiduPCS) (paths : List String) (option : Option ShareOption) :
    Option Shared × Option PanErrorInfo :=
  let option : ShareOption :=
    match option with
    | none => { Password := "", Period := 0 }
    | some o => o
  let prep := pcs.PrepareSharePSet paths option.Period option.Password
  match prep.2 with
  | some e => (none, some e)
  | none =>
    let errInfo := NewPanErrorInfo pcs.OperationShareSet
    let jsonData : sharePSetJSON := { Shared := { Link := "", ShareID := 0 }, PanErrorInfo := errInfo }
    let dec := pcs.HandleJSONParseSet pcs.OperationShareSet prep.1 jsonData
    match dec.2 with
    | some e => (none, some e)
    | none =>
      -- `errInfo` and `jsonData.PanErrorInfo` are the same object
      let errInfo := dec.1.PanErrorInfo
      if dec.1.Shared.Link = "" then
        (none, some { errInfo with ErrType := ErrType.ErrTypeOthers, Err := some ErrShareLinkNotFound })
      else (some dec.1.Shared, none)

/-- The cookie loop of `ShareInfo`/`ShareVarify` (lines 134-140 and 163-169). -/
def findBDCLND (cookie : List Cookie) : String :=
  cookie.foldl (fun (BDCLND : String) (c : Cookie) => if c.Name = "BDCLND" then c.Value else BDCLND) ""

/-- Go `(*BaiduPCS).ShareInfo` (lines 124-150). -/
def ShareInfo (pcs : BaiduPCS) (sourceID pwd : String) : Bool × Option PanErrorInfo :=
  let prep := pcs.PrepareShareVerify sourceID pwd
  match prep.2.2 with
  | some e => (false, some e)
  | none =>
    let errInfo := NewPanErrorInfo pcs.OperationShareVarify
    let BDCLND := findBDCLND prep.1.Cookies
    if BDCLND = "" then
      (false, some { errInfo with ErrType := ErrType.ErrTypeOthers, Err := some ErrShareLinkNotFound })
    else (true, none)

/-- Go `(*BaiduPCS).ShareVarify` (lines 153-179). -/
def ShareVarify (pcs : BaiduPCS) (sourceID pwd : String) : Bool × Option PanErrorInfo :=
  let prep := pcs.PrepareShareVerify sourceID pwd
  match prep.2.2 with
  | some e => (false, some e)
  | none =>
    let errInfo := NewPanErrorInfo pcs.OperationShareVarify
    let BDCLND := findBDCLND prep.1.Cookies
    if BDCLND = "" then
      (false, some { errInfo with ErrType := ErrType.ErrTypeOthers, Err := some ErrShareLinkNotFound })
    else (true, none)

/-- Go `(*BaiduPCS).ShareParse` (lines 183-235). -/
def ShareParse (pcs : BaiduPCS) (sourceID pwd : String) : ShareFileInfo × Option PanErrorInfo :=
  let shareFileInfo : ShareFileInfo := { SourceID := sourceID, ShareID := 0, FsIds := [], ShareUK := 0 }
  let prep := pcs.PrepareShareParse sourceID pwd
  match prep.2.2 with
  | some e => (shareFileInfo, some e)
  | none =>
    let errInfo := NewPanErrorInfo pcs.OperationShareVarify
    match pcs.NewDocumentFromReader prep.2.1 with
    | none => (shareFileInfo, some errInfo)
    | some docs =>
      let scan := scanScripts docs.bodyScripts
      if scan.1 then (extractFields shareFileInfo scan.2, none)
      else
        (shareFileInfo,
          some { errInfo with ErrType := ErrType.ErrTypeOthers, Err := some ErrShareLinkNotFound })

/-- Go `(*BaiduPCS).ShareTransfer` (lines 238-303).  `ErrorNo` is the named result, which no
statement assigns; the bare `return` of line 299 returns it. -/
def ShareTransfer (pcs : BaiduPCS) (sourceID pwd path : String) : Int × Option PanErrorInfo :=
  let ErrorNo : Int := 0
  let shareFileInfo : ShareFileInfo := { SourceID := sourceID, ShareID := 0, FsIds := [], ShareUK := 0 }
  let prep := pcs.PrepareShareParse sourceID pwd
  match prep.2.2 with
  | some e => (1000, some e)
  | none =>
    let errInfo := NewPanErrorInfo pcs.OperationShareParse
    let jsonData : transferJSON := { ErrorNo := 1000, PanErrorInfo := errInfo }
    match pcs.NewDocumentFromReader prep.2.1 with
    | none => (jsonData.ErrorNo, some errInfo)
    | some docs =>
      let scan := scanScripts docs.bodyScripts
      if scan.1 then
        let shareFileInfo := extractFields shareFileInfo scan.2
        let jar := prep.1.Cookies
        let req := pcs.PrepareShareTransfer jar shareFileInfo path
        let dec := pcs.HandleJSONParseTransfer pcs.OperationShareTransfer req.1 jsonData
        match dec.2 with
        | some e => (ErrorNo, some e)
        | none => (dec.1.ErrorNo, none)
      else
        (jsonData.ErrorNo,
          some { errInfo with ErrType := ErrType.ErrTypeOthers, Err := some ErrShareLinkNotFound })

/-- Go `(*BaiduPCS).ShareList` (lines 320-347); a nil list is `none`. -/
def ShareList (pcs : BaiduPCS) (page : Int) : Option ShareRecordInfoList × Option PanErrorInfo :=
  let prep := pcs.PrepareShareList page
  match prep.2 with
  | some e => (none, some e)
  | none =>
    let errInfo := NewPanErrorInfo pcs.OperationShareList
    let jsonData : shareListJSON := { List := none, PanErrorInfo := errInfo }
    let dec := pcs.HandleJSONParseList pcs.OperationShareList prep.1 jsonData
    match dec.2 with
    | some e => (none, some e)
    | none =>
      let errInfo := dec.1.PanErrorInfo
      match dec.1.List with
      | none =>
        (none, some { errInfo with ErrType := ErrType.ErrTypeOthers, Err := some "shared list is nil" })
      | some list => (some (ShareRecordInfoList.Clean list), none)

/-! ## Sample inputs and specification-level definitions -/

/-- A receiver whose collaborators all succeed with empty values. -/
def samplePCS : BaiduPCS where
  OperationShareSet := "ShareSet"
  OperationShareVarify := "ShareVarify"
  OperationShareParse := "ShareParse"
  OperationShareTransfer := "ShareTransfer"
  OperationShareList := "ShareList"
  PrepareSharePSet := fun _ _ _ => ("", none)
  PrepareShareVerify := fun _ _ => ({ Cookies := [] }, "", none)
  PrepareShareParse := fun _ _ => ({ Cookies := [] }, "", none)
  PrepareShareTransfer := fun _ _ _ => ("", none)
  PrepareShareList := fun _ => ("", none)
  HandleJSONParseSet := fun _ _ j => (j, none)
  HandleJSONParseList := fun _ _ j => (j, none)
  HandleJSONParseTransfer := fun _ _ j => (j, none)
  NewDocumentFromReader := fun _ => some { bodyScripts := [] }

/-- The option `ShareSet` works with: the nil option is the zero `ShareOption`. -/
def effectiveOption (option : Option ShareOption) : ShareOption :=
  match option with
  | none => { Password := "", Period := 0 }
  | some o => o

/-- The outcome of the creation request issued by `ShareSet`. -/
def shareSetRequest (pcs : BaiduPCS) (paths : List String) (option : Option ShareOption) :
    String × Option PanErrorInfo :=
  pcs.PrepareSharePSet paths (effectiveOption option).Period (effectiveOption option).Password

/-- The outcome of the JSON decode performed by `ShareSet` on the body of its request. -/
def shareSetDecode (pcs : BaiduPCS) (paths : List String) (option : Option ShareOption) :
    sharePSetJSON × Option PanErrorInfo :=
  pcs.HandleJSONParseSet pcs.OperationShareSet (shareSetRequest pcs paths option).1
    { Shared := { Link := "", ShareID := 0 }, PanErrorInfo := NewPanErrorInfo pcs.OperationShareSet }

/-- The outcome of the JSON decode performed by `ShareList` on the body of its request. -/
def shareListDecode (pcs : BaiduPCS) (page : Int) : shareListJSON × Option PanErrorInfo :=
  pcs.HandleJSONParseList pcs.OperationShareList (pcs.PrepareShareList page).1
    { List := none, PanErrorInfo := NewPanErrorInfo pcs.OperationShareList }

/-- A record with the given password, used as a sample. -/
def sampleRecord (passwd : String) : ShareRecordInfo :=
  { ShareID := 7, FsIds := [1, 2], Passwd := passwd, Shortlink := "l", Status := 0,
    TypicalCategory := 6, TypicalPath := "/a" }

/-- A receiver whose list response decodes to the given list. -/
def listPCS (l : Option ShareRecordInfoList) : BaiduPCS :=
  { samplePCS with HandleJSONParseList := fun _ _ j => ({ j with List := l }, none) }

/-- The value of the last cookie named `BDCLND` in the cookie list, if there is one. -/
def lastBDCLND (cookies : List Cookie) : Option String :=
  ((cookies.filter (fun c => decide (c.Name = "BDCLND"))).getLast?).map Cookie.Value

/-- A receiver whose verify response carries the given cookies. -/
def verifyPCS (cookies : List Cookie) : BaiduPCS :=
  { samplePCS with PrepareShareVerify := fun _ _ => ({ Cookies := cookies }, "", none) }

/-- A receiver whose share page parses into the given script blocks. -/
def pagePCS (scripts : List String) : BaiduPCS :=
  { samplePCS with NewDocumentFromReader := fun _ => some { bodyScripts := scripts } }

/-- A receiver whose share page parses into the given script blocks and whose transfer
response is decoded by `dec`. -/
def transferPCS (scripts : List String)
    (dec : transferJSON → transferJSON × Option PanErrorInfo) : BaiduPCS :=
  { samplePCS with
    NewDocumentFromReader := fun _ => some { bodyScripts := scripts }
    HandleJSONParseTransfer := fun _ _ j => dec j }

/-- A receiver whose creation response decodes to the given link. -/
def setPCS (link : String) : BaiduPCS :=
  { samplePCS with
    HandleJSONParseSet := fun _ _ j => ({ j with Shared := { Link := link, ShareID := 9 } }, none) }

/-- The initial `ShareFileInfo` of `ShareParse` and `ShareTransfer`. -/
def initialInfo (sourceID : String) : ShareFileInfo :=
  { SourceID := sourceID, ShareID := 0, FsIds := [], ShareUK := 0 }

/-- The outcome of the transfer request and decode issued by `ShareTransfer` once the
metadata `info` has been extracted. -/
def transferDecode (pcs : BaiduPCS) (sourceID pwd path : String) (info : ShareFileInfo) :
    transferJSON × Option PanErrorInfo :=
  pcs.HandleJSONParseTransfer pcs.OperationShareTransfer
    (pcs.PrepareShareTransfer (pcs.PrepareShareParse sourceID pwd).1.Cookies info path).1
    { ErrorNo := 1000, PanErrorInfo := NewPanErrorInfo pcs.OperationShareParse }

/-- A sample script block carrying the metadata marker. -/
def blockA : String := "yunData.setData(\x7b\"uk\":1,\"shareid\":2,\"fs_id\":3,\x7d)"

/-- A second sample script block carrying the metadata marker. -/
def blockB : String := "yunData.setData(\x7b\"uk\":4,\"shareid\":5,\"fs_id\":6,\x7d)"

/-- A sample error reported by the JSON decoder. -/
def decodeError : PanErrorInfo :=
  { Operation := "ShareTransfer", ErrType := ErrType.ErrTypeJSONParseError, Err := some "EOF", ErrNo := 0 }

/-- The step function of the script scan. -/
def scanStep (st : Bool × String) (text : String) : Bool × String :=
  if MatchString markerLiteral text.data then (true, text) else (false, st.2)

/-- The number a digit string denotes, without any bound. -/
def decimalValue (ds : List Char) : Nat :=
  ds.foldl (fun a c => a * 10 + (c.toNat - 48)) 0

/-- The largest `int64`. -/
def maxInt64 : Int := 9223372036854775807

/-- An occurrence of the pattern `key<digits>,` in `s` at position `p` with digit string
`ds`: `s` is `pre ++ key ++ ds ++ "," ++ post` with `pre` of length `p` and `ds` a non-empty
string of decimal digits. -/
def OccurrenceAt (key s : List Char) (p : Nat) (ds : List Char) : Prop :=
  ∃ pre post, s = pre ++ key ++ ds ++ Char.ofNat 44 :: post ∧ pre.length = p ∧ ds ≠ [] ∧
    ∀ c ∈ ds, c.isDigit = true

/-- No match of the pattern `key([0-9]+),` starts strictly inside another match. -/
def NoOverlap (key : List Char) : Prop :=
  ∀ (s : List Char) (m : List Char × Nat), matchAt key s = some m →
    ∀ p, 0 < p → p < m.2 → matchAt key (s.drop p) = none

/-- The `int64` stored for a captured digit string: the denoted number, capped at the
largest `int64`. -/
def int64Value (ds : List Char) : Int :=
  min (decimalValue ds : Int) maxInt64

/-- An occurrence of `key<digits>` in `s` at position `p`, read without the comma that the
pattern of the code requires: `ds` is the whole digit run that follows `key`. -/
def SpecOccurrenceAt (key s : List Char) (p : Nat) (ds : List Char) : Prop :=
  ∃ pre post, s = pre ++ key ++ ds ++ post ∧ pre.length = p ∧ ds ≠ [] ∧
    (∀ c ∈ ds, c.isDigit = true) ∧ ∀ x rest, post = x :: rest → x.isDigit = false

/-- A script block whose second file id is not followed by a comma. -/
def blockNoComma : String := "yunData.setData(\x7b\"fs_id\":1,\"fs_id\":2\x7d)"

/-- A script block whose file id exceeds the `int64` range. -/
def blockBigFsId : String := "yunData.setData(\x7b\"fs_id\":9223372036854775808,\x7d)"

/-- A script block with three file ids, two of them equal. -/
def blockThree : String := "yunData.setData(\x7b\"fs_id\":6,\"fs_id\":6,\"fs_id\":7,\x7d)"

/-- A script block whose numbers all exceed the `int64` range. -/
def blockOverflow : String :=
  "yunData.setData(\x7b\"uk\":9223372036854775808,\"shareid\":99999999999999999999,\"fs_id\":18446744073709551616,\x7d)"

/-! ## Theorems -/

theorem Clean_passwd (r : ShareRecordInfo) :
    r.Clean.Passwd = (if r.Passwd = "0" then "" else r.Passwd) ∧
    r.Clean.ShareID = r.ShareID ∧ r.Clean.FsIds = r.FsIds ∧ r.Clean.Shortlink = r.Shortlink ∧
    r.Clean.Status = r.Status ∧ r.Clean.TypicalCategory = r.TypicalCategory ∧
    r.Clean.TypicalPath = r.TypicalPath := by
  unfold ShareRecordInfo.Clean
  by_cases h : r.Passwd = "0" <;> simp [h]

/-- C8: `Clean` turns the password "0" into "", leaves a record with any other password
unchanged, never changes another field, and `HasPasswd` is false exactly for the
passwords "" and "0". -/
theorem C8_Clean_HasPasswd (r : ShareRecordInfo) :
    (r.Passwd = "0" → r.Clean.Passwd = "") ∧
    (r.Passwd ≠ "0" → r.Clean = r) ∧
    (r.Clean.ShareID = r.ShareID ∧ r.Clean.FsIds = r.FsIds ∧ r.Clean.Shortlink = r.Shortlink ∧
      r.Clean.Status = r.Status ∧ r.Clean.TypicalCategory = r.TypicalCategory ∧
      r.Clean.TypicalPath = r.TypicalPath) ∧
    (r.HasPasswd = false ↔ (r.Passwd = "" ∨ r.Passwd = "0")) ∧
    (r.HasPasswd = true ↔ (r.Passwd ≠ "" ∧ r.Passwd ≠ "0")) := by
  refine ⟨?_, ?_, (Clean_passwd r).2, ?_, ?_⟩
  · intro h; simp [ShareRecordInfo.Clean, h]
  · intro h; simp [ShareRecordInfo.Clean, h]
  · simp only [ShareRecordInfo.HasPasswd]
    by_cases h1 : r.Passwd = "" <;> by_cases h2 : r.Passwd = "0" <;> simp [h1, h2]
  · simp only [ShareRecordInfo.HasPasswd]
    by_cases h1 : r.Passwd = "" <;> by_cases h2 : r.Passwd = "0" <;> simp [h1, h2]

theorem C8_Clean_HasPasswd_witness :
    (sampleRecord "0").Clean.Passwd = "" ∧ (sampleRecord "pw").Clean = sampleRecord "pw" ∧
    (sampleRecord "0").HasPasswd = false ∧ (sampleRecord "pw").HasPasswd = true :=
  ⟨(C8_Clean_HasPasswd (sampleRecord "0")).1 (by decide),
   (C8_Clean_HasPasswd (sampleRecord "pw")).2.1 (by decide),
   (C8_Clean_HasPasswd (sampleRecord "0")).2.2.2.1.mpr (Or.inr (by decide)),
   (C8_Clean_HasPasswd (sampleRecord "pw")).2.2.2.2.mpr ⟨by decide, by decide⟩⟩

theorem ListClean_length (l : ShareRecordInfoList) :
    (ShareRecordInfoList.Clean l).length = l.length := by
  induction l with
  | nil => rfl
  | cons a t ih => cases a <;> simp [ShareRecordInfoList.Clean, ih]

theorem ListClean_getElem? (l : ShareRecordInfoList) (i : Nat) :
    (ShareRecordInfoList.Clean l)[i]? = (l[i]?).map (Option.map ShareRecordInfo.Clean) := by
  induction l generalizing i with
  | nil => simp [ShareRecordInfoList.Clean]
  | cons a t ih =>
    cases a <;> cases i <;> simp [ShareRecordInfoList.Clean, ih]

/-- C4: after a successful request and decode, a nil list gives the "shared list is nil"
error of type others, and a non-nil list is returned with the same length and order, nil
entries kept, and every record equal to the decoded one except that the password "0"
has become "". -/
theorem C4_ShareList (pcs : BaiduPCS) (page : Int)
    (hreq : (pcs.PrepareShareList page).2 = none)
    (hdec : (shareListDecode pcs page).2 = none) :
    ((shareListDecode pcs page).1.List = none →
      ∃ e, ShareList pcs page = (none, some e) ∧ e.ErrType = ErrType.ErrTypeOthers ∧
        e.Err = some "shared list is nil") ∧
    ((shareListDecode pcs page).1.List = some [] → ShareList pcs page = (some [], none)) ∧
    (∀ l : ShareRecordInfoList, (shareListDecode pcs page).1.List = some l →
      ∃ l' : ShareRecordInfoList, ShareList pcs page = (some l', none) ∧ l'.length = l.length ∧
        ∀ i : Nat, (l[i]? = some none → l'[i]? = some none) ∧
          ∀ r : ShareRecordInfo, l[i]? = some (some r) →
            ∃ r' : ShareRecordInfo, l'[i]? = some (some r') ∧
              r'.Passwd = (if r.Passwd = "0" then "" else r.Passwd) ∧
              r'.ShareID = r.ShareID ∧ r'.FsIds = r.FsIds ∧ r'.Shortlink = r.Shortlink ∧
              r'.Status = r.Status ∧ r'.TypicalCategory = r.TypicalCategory ∧
              r'.TypicalPath = r.TypicalPath) := by
  unfold shareListDecode at hdec
  have key : ∀ l, (shareListDecode pcs page).1.List = some l →
      ShareList pcs page = (some (ShareRecordInfoList.Clean l), none) := by
    intro l hl
    unfold shareListDecode at hl
    simp only [ShareList, hreq, hdec, hl]
  refine ⟨?_, ?_, ?_⟩
  · intro hl
    unfold shareListDecode at hl
    refine ⟨{ (shareListDecode pcs page).1.PanErrorInfo with
      ErrType := ErrType.ErrTypeOthers, Err := some "shared list is nil" }, ?_, rfl, rfl⟩
    simp only [ShareList, hreq, hdec, hl, shareListDecode]
  · intro hl
    rw [key [] hl]; rfl
  · intro l hl
    refine ⟨_, key l hl, ListClean_length l, ?_⟩
    intro i
    refine ⟨?_, ?_⟩
    · intro hi; rw [ListClean_getElem?, hi]; rfl
    · intro r hi
      refine ⟨r.Clean, ?_, Clean_passwd r⟩
      rw [ListClean_getElem?, hi]; rfl

theorem C4_ShareList_witness :
    ShareList (listPCS (some [])) 1 = (some [], none) :=
  (C4_ShareList (listPCS (some [])) 1 rfl rfl).2.1 rfl

/-- C7: with a successful request and decode, an empty decoded link gives a nil `Shared`
and an error of type others with cause `ErrShareLinkNotFound`, a non-empty link gives the
decoded `Shared` and no error; the nil option behaves as no password and period 0. -/
theorem C7_ShareSet (pcs : BaiduPCS) (paths : List String) (option : Option ShareOption)
    (hreq : (shareSetRequest pcs paths option).2 = none)
    (hdec : (shareSetDecode pcs paths option).2 = none) :
    ShareSet pcs paths none = ShareSet pcs paths (some { Password := "", Period := 0 }) ∧
    ((shareSetDecode pcs paths option).1.Shared.Link = "" →
      ∃ e, ShareSet pcs paths option = (none, some e) ∧ e.ErrType = ErrType.ErrTypeOthers ∧
        e.Err = some ErrShareLinkNotFound) ∧
    ((shareSetDecode pcs paths option).1.Shared.Link ≠ "" →
      ShareSet pcs paths option = (some (shareSetDecode pcs paths option).1.Shared, none)) := by
  refine ⟨rfl, ?_, ?_⟩
  · intro hl
    refine ⟨{ (shareSetDecode pcs paths option).1.PanErrorInfo with
      ErrType := ErrType.ErrTypeOthers, Err := some ErrShareLinkNotFound }, ?_, rfl, rfl⟩
    cases option <;>
      simp only [shareSetDecode, shareSetRequest, effectiveOption] at hreq hdec hl ⊢ <;>
      simp only [ShareSet, hreq, hdec, hl, if_true]
  · intro hl
    cases option <;>
      simp only [shareSetDecode, shareSetRequest, effectiveOption] at hreq hdec hl ⊢ <;>
      simp only [ShareSet, hreq, hdec, hl, if_false]

theorem C7_ShareSet_witness :
    ShareSet (setPCS "") ["/a"] none = ShareSet (setPCS "") ["/a"] (some { Password := "", Period := 0 }) ∧
    ShareSet (setPCS "https://pan/s/1x") ["/a"] none =
      (some { Link := "https://pan/s/1x", ShareID := 9 }, none) :=
  ⟨(C7_ShareSet (setPCS "") ["/a"] none rfl rfl).1,
   (C7_ShareSet (setPCS "https://pan/s/1x") ["/a"] none rfl rfl).2.2 (by decide)⟩

theorem findBDCLND_foldl (cookies : List Cookie) (acc : String) :
    cookies.foldl (fun (BDCLND : String) (c : Cookie) => if c.Name = "BDCLND" then c.Value else BDCLND) acc
      = (lastBDCLND cookies).getD acc := by
  induction cookies generalizing acc with
  | nil => rfl
  | cons c rest ih =>
    rw [List.foldl_cons, ih]
    unfold lastBDCLND
    by_cases h : c.Name = "BDCLND"
    · simp only [h, if_true, List.filter_cons, decide_True]
      cases hr : (List.filter (fun c => decide (c.Name = "BDCLND")) rest) with
      | nil => simp
      | cons a t =>
        rw [List.getLast?_cons_cons, List.getLast?_eq_getLast _ (List.cons_ne_nil a t)]
        rfl
    · simp [h, List.filter_cons]

theorem findBDCLND_eq (cookies : List Cookie) :
    findBDCLND cookies = (lastBDCLND cookies).getD "" :=
  findBDCLND_foldl cookies ""

/-- C2 (amended): after a verify request without error, `ShareVarify` and `ShareInfo`
agree; they return `(true, nil)` when the last cookie named `BDCLND` of the response has a
non-empty value, and otherwise `false` with an error of type others whose cause is
`ErrShareLinkNotFound`.  The body of the response does not occur in the result. -/
theorem C2_ShareVarify_last_cookie (pcs : BaiduPCS) (sourceID pwd : String)
    (hreq : (pcs.PrepareShareVerify sourceID pwd).2.2 = none) :
    ShareInfo pcs sourceID pwd = ShareVarify pcs sourceID pwd ∧
    ((∃ v, lastBDCLND (pcs.PrepareShareVerify sourceID pwd).1.Cookies = some v ∧ v ≠ "") →
      ShareVarify pcs sourceID pwd = (true, none)) ∧
    ((¬ ∃ v, lastBDCLND (pcs.PrepareShareVerify sourceID pwd).1.Cookies = some v ∧ v ≠ "") →
      ∃ e, ShareVarify pcs sourceID pwd = (false, some e) ∧
        e.ErrType = ErrType.ErrTypeOthers ∧ e.Err = some ErrShareLinkNotFound) := by
  refine ⟨rfl, ?_, ?_⟩
  · rintro ⟨v, hv, hne⟩
    have hb : findBDCLND (pcs.PrepareShareVerify sourceID pwd).1.Cookies ≠ "" := by
      rw [findBDCLND_eq, hv]; exact hne
    simp only [ShareVarify, hreq, hb, if_false]
  · intro hno
    have hb : findBDCLND (pcs.PrepareShareVerify sourceID pwd).1.Cookies = "" := by
      rw [findBDCLND_eq]
      cases hl : lastBDCLND (pcs.PrepareShareVerify sourceID pwd).1.Cookies with
      | none => rfl
      | some v =>
        by_contra hne
        exact hno ⟨v, hl, hne⟩
    refine ⟨{ NewPanErrorInfo pcs.OperationShareVarify with
      ErrType := ErrType.ErrTypeOthers, Err := some ErrShareLinkNotFound }, ?_, rfl, rfl⟩
    simp only [ShareVarify, hreq, hb, if_true]

theorem C2_ShareVarify_last_cookie_witness :
    ShareVarify (verifyPCS [{ Name := "BDCLND", Value := "" }, { Name := "BDCLND", Value := "tok" }])
      "1abc" "pw" = (true, none) :=
  (C2_ShareVarify_last_cookie
    (verifyPCS [{ Name := "BDCLND", Value := "" }, { Name := "BDCLND", Value := "tok" }])
    "1abc" "pw" rfl).2.1 ⟨"tok", by decide, by decide⟩

/-- C2 as stated fails: the response carries a cookie named `BDCLND` with a non-empty
value, followed by a cookie of the same name with an empty value, and `ShareVarify` and
`ShareInfo` return `false` with the `ErrShareLinkNotFound` error. -/
theorem C2_counterexample :
    (∃ c ∈ [({ Name := "BDCLND", Value := "tok" } : Cookie), { Name := "BDCLND", Value := "" }],
      c.Name = "BDCLND" ∧ c.Value ≠ "") ∧
    (ShareVarify (verifyPCS [{ Name := "BDCLND", Value := "tok" }, { Name := "BDCLND", Value := "" }])
      "1abc" "pw").1 = false ∧
    (ShareVarify (verifyPCS [{ Name := "BDCLND", Value := "tok" }, { Name := "BDCLND", Value := "" }])
      "1abc" "pw").2.map (fun e => (e.ErrType, e.Err)) =
      some (ErrType.ErrTypeOthers, some ErrShareLinkNotFound) ∧
    (ShareInfo (verifyPCS [{ Name := "BDCLND", Value := "tok" }, { Name := "BDCLND", Value := "" }])
      "1abc" "pw").1 = false ∧
    (ShareInfo (verifyPCS [{ Name := "BDCLND", Value := "tok" }, { Name := "BDCLND", Value := "" }])
      "1abc" "pw").2.map (fun e => (e.ErrType, e.Err)) =
      some (ErrType.ErrTypeOthers, some ErrShareLinkNotFound) := by
  refine ⟨⟨{ Name := "BDCLND", Value := "tok" }, by simp, rfl, by decide⟩,
    by decide, by decide, by decide, by decide⟩

theorem scanScripts_eq (scripts : List String) :
    scanScripts scripts = scripts.foldl scanStep (false, "") := by
  unfold scanScripts
  congr 1
  funext st text
  unfold scanStep
  cases h : MatchString markerLiteral text.data <;> simp

theorem scan_no_match (scripts : List String) (st : Bool × String) (hst : st.1 = false)
    (hno : ∀ t ∈ scripts, MatchString markerLiteral t.data = false) :
    (scripts.foldl scanStep st).1 = false := by
  induction scripts generalizing st with
  | nil => exact hst
  | cons t rest ih =>
    rw [List.foldl_cons]
    apply ih
    · simp [scanStep, hno t (List.mem_cons_self t rest)]
    · intro u hu
      exact hno u (List.mem_cons_of_mem t hu)

theorem scanScripts_last_match (pre : List String) (content : String)
    (hm : MatchString markerLiteral content.data = true) :
    scanScripts (pre ++ [content]) = (true, content) := by
  rw [scanScripts_eq, List.foldl_append]
  simp [scanStep, hm]

theorem scanScripts_last_no_match (pre : List String) (last : String)
    (hm : MatchString markerLiteral last.data = false) :
    (scanScripts (pre ++ [last])).1 = false := by
  rw [scanScripts_eq, List.foldl_append]
  simp [scanStep, hm]

/-- When the last script block of the body carries the marker, `ShareParse` succeeds with
the fields extracted from that block. -/
theorem ShareParse_last_block (pcs : BaiduPCS) (sourceID pwd : String) (docs : Document)
    (pre : List String) (content : String)
    (hreq : (pcs.PrepareShareParse sourceID pwd).2.2 = none)
    (hdoc : pcs.NewDocumentFromReader (pcs.PrepareShareParse sourceID pwd).2.1 = some docs)
    (hlast : docs.bodyScripts = pre ++ [content])
    (hm : MatchString markerLiteral content.data = true) :
    ShareParse pcs sourceID pwd = (extractFields (initialInfo sourceID) content, none) := by
  have hs := scanScripts_last_match pre content hm
  rw [← hlast] at hs
  simp only [ShareParse, hreq, hdoc, hs, if_true, initialInfo]

/-- When the last script block of the body carries the marker, `ShareTransfer` returns what
the transfer decode produced: the decoded `ErrorNo` without error, and the unassigned
named result `0` together with the decode error. -/
theorem ShareTransfer_last_block (pcs : BaiduPCS) (sourceID pwd path : String) (docs : Document)
    (pre : List String) (content : String)
    (hreq : (pcs.PrepareShareParse sourceID pwd).2.2 = none)
    (hdoc : pcs.NewDocumentFromReader (pcs.PrepareShareParse sourceID pwd).2.1 = some docs)
    (hlast : docs.bodyScripts = pre ++ [content])
    (hm : MatchString markerLiteral content.data = true) :
    ShareTransfer pcs sourceID pwd path =
      match (transferDecode pcs sourceID pwd path (extractFields (initialInfo sourceID) content)).2 with
      | some e => (0, some e)
      | none =>
        ((transferDecode pcs sourceID pwd path (extractFields (initialInfo sourceID) content)).1.ErrorNo,
          none) := by
  have hs := scanScripts_last_match pre content hm
  rw [← hlast] at hs
  simp only [ShareTransfer, hreq, hdoc, hs, if_true, initialInfo, transferDecode]

/-- C5: when the page request fails, or the page cannot be parsed, or no script block of
the body carries the marker, `ShareTransfer` returns the code 1000 with a non-nil error;
in the last case the error has type others and cause `ErrShareLinkNotFound`. -/
theorem C5_ShareTransfer_extraction_failure (pcs : BaiduPCS) (sourceID pwd path : String) :
    (∀ e, (pcs.PrepareShareParse sourceID pwd).2.2 = some e →
      ShareTransfer pcs sourceID pwd path = (1000, some e)) ∧
    ((pcs.PrepareShareParse sourceID pwd).2.2 = none →
      pcs.NewDocumentFromReader (pcs.PrepareShareParse sourceID pwd).2.1 = none →
      ∃ e, ShareTransfer pcs sourceID pwd path = (1000, some e)) ∧
    ((pcs.PrepareShareParse sourceID pwd).2.2 = none →
      ∀ docs, pcs.NewDocumentFromReader (pcs.PrepareShareParse sourceID pwd).2.1 = some docs →
      (∀ t ∈ docs.bodyScripts, MatchString markerLiteral t.data = false) →
      ∃ e, ShareTransfer pcs sourceID pwd path = (1000, some e) ∧
        e.ErrType = ErrType.ErrTypeOthers ∧ e.Err = some ErrShareLinkNotFound) := by
  refine ⟨?_, ?_, ?_⟩
  · intro e he
    simp only [ShareTransfer, he]
  · intro hreq hdoc
    exact ⟨NewPanErrorInfo pcs.OperationShareParse, by simp only [ShareTransfer, hreq, hdoc]⟩
  · intro hreq docs hdoc hno
    have hs : (scanScripts docs.bodyScripts).1 = false := by
      rw [scanScripts_eq]
      exact scan_no_match docs.bodyScripts (false, "") rfl hno
    refine ⟨{ NewPanErrorInfo pcs.OperationShareParse with
      ErrType := ErrType.ErrTypeOthers, Err := some ErrShareLinkNotFound }, ?_, rfl, rfl⟩
    simp [ShareTransfer, hreq, hdoc, hs]

theorem C5_ShareTransfer_extraction_failure_witness :
    ∃ e, ShareTransfer (pagePCS ["var x = 1;"]) "1abc" "pw" "/dst" = (1000, some e) ∧
      e.ErrType = ErrType.ErrTypeOthers ∧ e.Err = some ErrShareLinkNotFound :=
  (C5_ShareTransfer_extraction_failure (pagePCS ["var x = 1;"]) "1abc" "pw" "/dst").2.2 rfl
    { bodyScripts := ["var x = 1;"] } rfl (by decide)

/-- C6 fails on the code: the share page is parsed and its only script block carries the
marker, the transfer decode fills in the result code 12 and reports an error, and
`ShareTransfer` returns 0 with that error instead of 12. -/
theorem C6_decode_error_returns_zero :
    (transferDecode (transferPCS [blockA] (fun j => ({ j with ErrorNo := 12 }, some decodeError)))
        "1abc" "pw" "/dst" (extractFields (initialInfo "1abc") blockA)).1.ErrorNo = 12 ∧
    ShareTransfer (transferPCS [blockA] (fun j => ({ j with ErrorNo := 12 }, some decodeError)))
        "1abc" "pw" "/dst" = (0, some decodeError) ∧
    ShareTransfer (transferPCS [blockA] (fun j => ({ j with ErrorNo := 12 }, none)))
        "1abc" "pw" "/dst" = (12, none) := by
  refine ⟨rfl, by decide, by decide⟩

/-- C10 fails on the code: whatever the operation names are, the no-matching-script error
of `ShareParse` carries the name of the verify operation and the one of `ShareTransfer`
carries the name of the share-parse operation. -/
theorem C10_operation_tags (pcs : BaiduPCS) :
    (ShareParse { pcs with
        PrepareShareParse := fun _ _ => ({ Cookies := [] }, "", none)
        NewDocumentFromReader := fun _ => some { bodyScripts := ["var x = 1;"] } }
      "1abc" "pw").2.map (fun e => (e.Operation, e.ErrType, e.Err)) =
      some (pcs.OperationShareVarify, ErrType.ErrTypeOthers, some ErrShareLinkNotFound) ∧
    (ShareTransfer { pcs with
        PrepareShareParse := fun _ _ => ({ Cookies := [] }, "", none)
        NewDocumentFromReader := fun _ => some { bodyScripts := ["var x = 1;"] } }
      "1abc" "pw" "/dst").2.map (fun e => (e.Operation, e.ErrType, e.Err)) =
      some (pcs.OperationShareParse, ErrType.ErrTypeOthers, some ErrShareLinkNotFound) := by
  have hs : (scanScripts ["var x = 1;"]).1 = false := by decide
  constructor
  · simp [ShareParse, hs, NewPanErrorInfo]
  · simp [ShareTransfer, hs, NewPanErrorInfo]

/-- C1 fails on the code: the body holds two script blocks that carry the marker, followed
by a script block that does not, and `ShareParse` returns the `ErrShareLinkNotFound` error
with zero fields, although the last matching block holds uk 4, share id 5 and file id 6. -/
theorem C1_trailing_script_loses_match :
    MatchString markerLiteral blockA.data = true ∧
    MatchString markerLiteral blockB.data = true ∧
    extractFields (initialInfo "1abc") blockB =
      { SourceID := "1abc", ShareID := 5, FsIds := [6], ShareUK := 4 } ∧
    (ShareParse (pagePCS [blockA, blockB, "var x = 1;"]) "1abc" "pw").1 =
      { SourceID := "1abc", ShareID := 0, FsIds := [], ShareUK := 0 } ∧
    (ShareParse (pagePCS [blockA, blockB, "var x = 1;"]) "1abc" "pw").2.map
        (fun e => (e.ErrType, e.Err)) =
      some (ErrType.ErrTypeOthers, some ErrShareLinkNotFound) := by
  refine ⟨by decide, by decide, by decide, by decide, by decide⟩

theorem isDigit_iff (c : Char) : c.isDigit = true ↔ 48 ≤ c.toNat ∧ c.toNat ≤ 57 := by
  simp only [Char.isDigit, Char.toNat, Bool.and_eq_true, decide_eq_true_eq, ge_iff_le,
    UInt32.le_def]
  rfl

theorem foldl_digits_ge (ds : List Char) (n : Nat) :
    n ≤ ds.foldl (fun a c => a * 10 + (c.toNat - 48)) n := by
  induction ds generalizing n with
  | nil => exact Nat.le_refl n
  | cons c cs ih =>
    rw [List.foldl_cons]
    exact Nat.le_trans (by omega) (ih _)

theorem ParseUintLoop_digits (ds : List Char) (n : Nat) (hn : n < 2 ^ 64)
    (hd : ∀ c ∈ ds, c.isDigit = true) :
    ParseUintLoop ds n =
      if ds.foldl (fun a c => a * 10 + (c.toNat - 48)) n < 2 ^ 64 then
        (ds.foldl (fun a c => a * 10 + (c.toNat - 48)) n, none)
      else (maxUint64, some NumError.ErrRange) := by
  induction ds generalizing n with
  | nil =>
    simp only [ParseUintLoop, List.foldl_nil]
    rw [if_pos hn]
  | cons c cs ih =>
    have hc := (isDigit_iff c).1 (hd c (List.mem_cons_self c cs))
    have hcs : ∀ d ∈ cs, d.isDigit = true := fun d hd' => hd d (List.mem_cons_of_mem c hd')
    have hge := foldl_digits_ge cs (n * 10 + (c.toNat - 48))
    rw [List.foldl_cons]
    unfold ParseUintLoop
    simp only [hc, and_self, if_true, maxUint64]
    by_cases h1 : n ≥ 18446744073709551615 / 10 + 1
    · rw [if_pos h1, if_neg (by omega)]
    · rw [if_neg h1]
      have hn10 : n * 10 % 2 ^ 64 = n * 10 := Nat.mod_eq_of_lt (by omega)
      simp only [hn10]
      by_cases h2 : n * 10 + (c.toNat - 48) < 2 ^ 64
      · have hm : (n * 10 + (c.toNat - 48)) % 2 ^ 64 = n * 10 + (c.toNat - 48) :=
          Nat.mod_eq_of_lt h2
        rw [hm, if_neg (by omega)]
        exact ih _ h2 hcs
      · have hm : (n * 10 + (c.toNat - 48)) % 2 ^ 64 = n * 10 + (c.toNat - 48) - 2 ^ 64 := by
          omega
        rw [hm, if_pos (by omega), if_neg (by omega)]

/-- On a non-empty digit string `ParseInt` returns the denoted number without error when it
fits into an `int64`, and the largest `int64` with a range error otherwise. -/
theorem ParseInt_digits (ds : List Char) (hne : ds ≠ []) (hd : ∀ c ∈ ds, c.isDigit = true) :
    ParseInt ds =
      if decimalValue ds < 2 ^ 63 then ((decimalValue ds : Int), none)
      else (maxInt64, some NumError.ErrRange) := by
  cases ds with
  | nil => exact absurd rfl hne
  | cons c cs =>
    have hc := (isDigit_iff c).1 (hd c (List.mem_cons_self c cs))
    have h43 : c ≠ Char.ofNat 43 := by
      intro h; rw [h] at hc; revert hc; decide
    have h45 : c ≠ Char.ofNat 45 := by
      intro h; rw [h] at hc; revert hc; decide
    have hu := ParseUintLoop_digits (c :: cs) 0 (by norm_num) hd
    unfold ParseInt
    simp only [h43, h45, or_self, if_false, decide_False, ParseUint]
    rw [hu]
    unfold decimalValue maxInt64
    generalize List.foldl (fun a c => a * 10 + (c.toNat - 48)) 0 (c :: cs) = V
    by_cases hlt : V < 2 ^ 64
    · rw [if_pos hlt]
      by_cases h63 : V < 2 ^ 63
      · have h1 : ¬ (V ≥ 2 ^ 63) := by omega
        have h2 : ¬ (V > 2 ^ 63) := by omega
        simp only [h63, h1, h2, if_true, if_false, and_false, false_and, Bool.false_eq_true,
          reduceCtorEq]
      · have h1 : V ≥ 2 ^ 63 := by omega
        simp only [h63, h1, if_true, if_false, and_self, reduceCtorEq]
        rfl
    · rw [if_neg hlt]
      have h63 : ¬ V < 2 ^ 63 := by omega
      simp only [h63, maxUint64, if_false, reduceCtorEq]
      rfl

theorem ParseInt_digits_value (ds : List Char) (hne : ds ≠ []) (hd : ∀ c ∈ ds, c.isDigit = true) :
    (ParseInt ds).1 = min (decimalValue ds : Int) maxInt64 := by
  rw [ParseInt_digits ds hne hd]
  unfold maxInt64
  by_cases h : decimalValue ds < 2 ^ 63
  · rw [if_pos h]; simp only; omega
  · rw [if_neg h]; simp only; omega

theorem ParseInt_digits_error (ds : List Char) (hne : ds ≠ []) (hd : ∀ c ∈ ds, c.isDigit = true)
    (herr : (ParseInt ds).2 ≠ none) : (ParseInt ds).1 = maxInt64 ∧ 2 ^ 63 ≤ decimalValue ds := by
  rw [ParseInt_digits ds hne hd] at herr ⊢
  by_cases h : decimalValue ds < 2 ^ 63
  · rw [if_pos h] at herr; exact absurd rfl herr
  · rw [if_neg h]; exact ⟨rfl, by omega⟩

theorem dropLiteral_eq_some (k s r : List Char) : dropLiteral k s = some r ↔ s = k ++ r := by
  induction k generalizing s with
  | nil => simp [dropLiteral, eq_comm]
  | cons a k ih =>
    cases s with
    | nil => simp [dropLiteral]
    | cons c cs =>
      by_cases h : a = c
      · subst h; simp [dropLiteral, ih]
      · simp [dropLiteral, h, Ne.symm h]

theorem takeWhile_digits_append (ds post : List Char) (x : Char)
    (hd : ∀ c ∈ ds, c.isDigit = true) (hx : x.isDigit = false) :
    (ds ++ x :: post).takeWhile Char.isDigit = ds ∧
    (ds ++ x :: post).dropWhile Char.isDigit = x :: post := by
  induction ds with
  | nil => simp [List.takeWhile, List.dropWhile, hx]
  | cons c cs ih =>
    have hc := hd c (List.mem_cons_self c cs)
    have ih' := ih (fun d hd' => hd d (List.mem_cons_of_mem c hd'))
    simp [List.takeWhile, List.dropWhile, hc, ih'.1, ih'.2]

theorem matchAt_eq_some (key s ds : List Char) (n : Nat) :
    matchAt key s = some (ds, n) ↔
      (∃ post, s = key ++ ds ++ Char.ofNat 44 :: post) ∧ ds ≠ [] ∧
        (∀ c ∈ ds, c.isDigit = true) ∧ n = key.length + ds.length + 1 := by
  constructor
  · intro h
    unfold matchAt at h
    cases hr : dropLiteral key s with
    | none => rw [hr] at h; cases h
    | some r =>
      rw [hr] at h
      simp only at h
      have hsplit := List.takeWhile_append_dropWhile Char.isDigit r
      cases hdw : r.dropWhile Char.isDigit with
      | nil => rw [hdw] at h; cases h
      | cons c rest =>
        rw [hdw] at h
        simp only at h
        by_cases hc : r.takeWhile Char.isDigit ≠ [] ∧ c = Char.ofNat 44
        · rw [if_pos hc] at h
          have h' := Option.some.inj h
          have h1 : r.takeWhile Char.isDigit = ds := congrArg Prod.fst h'
          have h2 : key.length + (r.takeWhile Char.isDigit).length + 1 = n := congrArg Prod.snd h'
          refine ⟨⟨rest, ?_⟩, ?_, ?_, ?_⟩
          · rw [(dropLiteral_eq_some key s r).1 hr, ← h1, ← hc.2, ← hdw, List.append_assoc, hsplit]
          · rw [← h1]; exact hc.1
          · intro d hdmem
            rw [← h1] at hdmem
            exact List.mem_takeWhile_imp hdmem
          · rw [← h2, h1]
        · rw [if_neg hc] at h; cases h
  · rintro ⟨⟨post, hs⟩, hne, hd, hn⟩
    have hr : dropLiteral key s = some (ds ++ Char.ofNat 44 :: post) := by
      rw [dropLiteral_eq_some, hs, List.append_assoc]
    have htd := takeWhile_digits_append ds post (Char.ofNat 44) hd (by decide)
    unfold matchAt
    rw [hr]
    simp only [htd.1, htd.2, hne, ne_eq, not_false_eq_true, and_self, if_true, hn]

theorem matchAt_nil (key : List Char) : matchAt key [] = none := by
  cases h : matchAt key [] with
  | none => rfl
  | some m =>
    obtain ⟨⟨post, hs⟩, -, -, -⟩ := (matchAt_eq_some key [] m.1 m.2).1 h
    simp at hs

theorem occurrenceAt_iff_matchAt (key s : List Char) (p : Nat) (ds : List Char) :
    OccurrenceAt key s p ds ↔ ∃ n, matchAt key (s.drop p) = some (ds, n) := by
  constructor
  · rintro ⟨pre, post, hs, hp, hne, hd⟩
    refine ⟨key.length + ds.length + 1, ?_⟩
    rw [matchAt_eq_some]
    refine ⟨⟨post, ?_⟩, hne, hd, rfl⟩
    rw [hs, ← hp]
    simp [List.append_assoc]
  · rintro ⟨n, h⟩
    have hle : p ≤ s.length := by
      by_contra hgt
      rw [List.drop_eq_nil_of_le (by omega), matchAt_nil] at h
      cases h
    obtain ⟨⟨post, hs⟩, hne, hd, -⟩ := (matchAt_eq_some key (s.drop p) ds n).1 h
    refine ⟨s.take p, post, ?_, ?_, hne, hd⟩
    · rw [List.append_assoc, List.append_assoc, ← List.append_assoc key, ← hs,
        List.take_append_drop]
    · simp [List.length_take, hle]

theorem matchAt_head_ne (key rest : List Char) (k x : Char) (ks : List Char)
    (hk : key = k :: ks) (hx : x ≠ k) : matchAt key (x :: rest) = none := by
  cases h : matchAt key (x :: rest) with
  | none => rfl
  | some m =>
    obtain ⟨⟨post, hs⟩, -, -, -⟩ := (matchAt_eq_some key (x :: rest) m.1 m.2).1 h
    rw [hk] at hs
    simp only [List.cons_append, List.cons.injEq] at hs
    exact absurd hs.1 hx

theorem drop_digits_head (ds post : List Char) (q : Nat) (hq : q ≤ ds.length)
    (hd : ∀ c ∈ ds, c.isDigit = true) :
    ∃ x rest, (ds ++ Char.ofNat 44 :: post).drop q = x :: rest ∧
      (x.isDigit = true ∨ x = Char.ofNat 44) := by
  induction ds generalizing q with
  | nil =>
    have : q = 0 := by simpa using hq
    subst this
    exact ⟨Char.ofNat 44, post, rfl, Or.inr rfl⟩
  | cons c cs ih =>
    cases q with
    | zero => exact ⟨c, cs ++ Char.ofNat 44 :: post, rfl, Or.inl (hd c (List.mem_cons_self c cs))⟩
    | succ q =>
      have hq' : q ≤ cs.length := by simpa using hq
      exact ih q hq' (fun d hd' => hd d (List.mem_cons_of_mem c hd'))

theorem fsIdKey_eq :
    fsIdKey = [Char.ofNat 34, Char.ofNat 102, Char.ofNat 115, Char.ofNat 95, Char.ofNat 105,
      Char.ofNat 100, Char.ofNat 34, Char.ofNat 58] := by
  decide

theorem noOverlap_fsIdKey : NoOverlap fsIdKey := by
  intro s m hm p hp0 hpm
  obtain ⟨⟨post, hs⟩, -, hd, hn⟩ := (matchAt_eq_some fsIdKey s m.1 m.2).1 hm
  rw [hn] at hpm
  have hlen : fsIdKey.length = 8 := by decide
  rw [hlen] at hpm
  by_cases hp8 : p < 8
  · rw [hs, fsIdKey_eq]
    have hcases : p = 1 ∨ p = 2 ∨ p = 3 ∨ p = 4 ∨ p = 5 ∨ p = 6 ∨ p = 7 := by omega
    rcases hcases with h | h | h | h | h | h | h <;> subst h
    · exact matchAt_head_ne _ _ (Char.ofNat 34) _ _ rfl (by decide)
    · exact matchAt_head_ne _ _ (Char.ofNat 34) _ _ rfl (by decide)
    · exact matchAt_head_ne _ _ (Char.ofNat 34) _ _ rfl (by decide)
    · exact matchAt_head_ne _ _ (Char.ofNat 34) _ _ rfl (by decide)
    · exact matchAt_head_ne _ _ (Char.ofNat 34) _ _ rfl (by decide)
    · simp only [List.cons_append, List.nil_append, List.drop_succ_cons, List.drop_zero]
      unfold matchAt
      have hnone : dropLiteral [Char.ofNat 34, Char.ofNat 102, Char.ofNat 115, Char.ofNat 95,
          Char.ofNat 105, Char.ofNat 100, Char.ofNat 34, Char.ofNat 58]
          (Char.ofNat 34 :: Char.ofNat 58 :: (m.1 ++ Char.ofNat 44 :: post)) = none := by
        simp [dropLiteral]
      rw [hnone]
    · exact matchAt_head_ne _ _ (Char.ofNat 34) _ _ rfl (by decide)
  · have hq : p - 8 ≤ m.1.length := by omega
    obtain ⟨x, rest, hdrop, hx⟩ := drop_digits_head m.1 post (p - 8) hq hd
    have hsplit : s.drop p = (m.1 ++ Char.ofNat 44 :: post).drop (p - 8) := by
      rw [hs, List.append_assoc, List.drop_append_eq_append_drop]
      have h1 : List.drop p fsIdKey = [] := List.drop_eq_nil_of_le (by rw [hlen]; omega)
      rw [h1, hlen, List.nil_append]
    rw [hsplit, hdrop]
    refine matchAt_head_ne fsIdKey rest (Char.ofNat 34) x _ fsIdKey_eq ?_
    rcases hx with hx | hx
    · intro hxe; rw [hxe] at hx; revert hx; decide
    · rw [hx]; decide

theorem mem_findAllFrom (key : List Char) (hno : NoOverlap key) (s : List Char) (k : Nat)
    (ds : List Char) :
    ds ∈ FindAllStringSubmatchFrom key k s ↔
      ∃ p, k ≤ p ∧ ∃ n, matchAt key (s.drop p) = some (ds, n) := by
  induction s generalizing k with
  | nil =>
    simp only [FindAllStringSubmatchFrom, List.not_mem_nil, List.drop_nil, matchAt_nil, false_iff]
    rintro ⟨p, -, n, h⟩
    cases h
  | cons c cs ih =>
    cases k with
    | succ k =>
      simp only [FindAllStringSubmatchFrom]
      rw [ih k]
      constructor
      · rintro ⟨p, hp, n, h⟩
        exact ⟨p + 1, by omega, n, h⟩
      · rintro ⟨p, hp, n, h⟩
        cases p with
        | zero => omega
        | succ p => exact ⟨p, by omega, n, h⟩
    | zero =>
      simp only [FindAllStringSubmatchFrom]
      cases hm : matchAt key (c :: cs) with
      | none =>
        simp only
        rw [ih 0]
        constructor
        · rintro ⟨p, -, n, h⟩
          exact ⟨p + 1, Nat.zero_le _, n, h⟩
        · rintro ⟨p, -, n, h⟩
          cases p with
          | zero => rw [List.drop_zero, hm] at h; cases h
          | succ p => exact ⟨p, Nat.zero_le _, n, h⟩
      | some m =>
        simp only [List.mem_cons]
        rw [ih (m.2 - 1)]
        constructor
        · rintro (h | ⟨p, hp, n, h⟩)
          · exact ⟨0, Nat.le_refl 0, m.2, by rw [List.drop_zero, hm, h]⟩
          · exact ⟨p + 1, Nat.zero_le _, n, h⟩
        · rintro ⟨p, -, n, h⟩
          cases p with
          | zero =>
            rw [List.drop_zero, hm] at h
            left
            exact (congrArg Prod.fst (Option.some.inj h)).symm
          | succ p =>
            right
            by_cases hlt : p + 1 < m.2
            · have := hno (c :: cs) m hm (p + 1) (Nat.succ_pos p) hlt
              rw [this] at h
              cases h
            · exact ⟨p, by omega, n, h⟩

/-- The capture groups returned by `FindAllStringSubmatch` for the `fs_id` pattern are
exactly the digit strings of the occurrences of `"fs_id":<digits>,` in the text. -/
theorem mem_findAll_fsId (s ds : List Char) :
    ds ∈ FindAllStringSubmatch fsIdKey s ↔ ∃ p, OccurrenceAt fsIdKey s p ds := by
  unfold FindAllStringSubmatch
  rw [mem_findAllFrom fsIdKey noOverlap_fsIdKey]
  constructor
  · rintro ⟨p, -, h⟩
    exact ⟨p, (occurrenceAt_iff_matchAt fsIdKey s p ds).2 h⟩
  · rintro ⟨p, h⟩
    exact ⟨p, Nat.zero_le p, (occurrenceAt_iff_matchAt fsIdKey s p ds).1 h⟩

theorem findStringSubmatch_digits (key s ds : List Char)
    (h : FindStringSubmatch key s = some ds) : ds ≠ [] ∧ ∀ c ∈ ds, c.isDigit = true := by
  induction s with
  | nil => cases h
  | cons c cs ih =>
    unfold FindStringSubmatch at h
    cases hm : matchAt key (c :: cs) with
    | none => rw [hm] at h; exact ih h
    | some m =>
      rw [hm] at h
      have hds : m.1 = ds := Option.some.inj h
      obtain ⟨-, hne, hd, -⟩ := (matchAt_eq_some key (c :: cs) m.1 m.2).1 hm
      rw [hds] at hne hd
      exact ⟨hne, hd⟩

theorem occurrenceAt_unique (key s : List Char) (p : Nat) (d1 d2 : List Char)
    (h1 : OccurrenceAt key s p d1) (h2 : OccurrenceAt key s p d2) : d1 = d2 := by
  obtain ⟨n1, e1⟩ := (occurrenceAt_iff_matchAt key s p d1).1 h1
  obtain ⟨n2, e2⟩ := (occurrenceAt_iff_matchAt key s p d2).1 h2
  rw [e1] at e2
  exact congrArg Prod.fst (Option.some.inj e2)

theorem mem_removeDuplicateElement (xs : List Int) (v : Int) :
    v ∈ removeDuplicateElement xs ↔ v ∈ xs := by
  induction xs with
  | nil => simp [removeDuplicateElement]
  | cons x xs ih =>
    simp only [removeDuplicateElement, List.mem_cons, List.mem_filter, ih, decide_eq_true_eq]
    by_cases h : v = x
    · simp [h]
    · simp [h]

theorem nodup_removeDuplicateElement (xs : List Int) : (removeDuplicateElement xs).Nodup := by
  induction xs with
  | nil => simp [removeDuplicateElement]
  | cons x xs ih =>
    simp only [removeDuplicateElement, List.nodup_cons, List.mem_filter, decide_eq_true_eq]
    exact ⟨fun h => h.2 rfl, ih.filter _⟩

theorem extractFields_FsIds (sourceID : String) (content : String) :
    (extractFields (initialInfo sourceID) content).FsIds =
      removeDuplicateElement
        ((FindAllStringSubmatch fsIdKey content.data).map (fun v => (ParseInt v).1)) := by
  unfold extractFields
  cases hl : FindAllStringSubmatch fsIdKey content.data with
  | nil =>
    cases FindStringSubmatch ukKey content.data <;>
      cases FindStringSubmatch shareidKey content.data <;>
      simp [initialInfo, removeDuplicateElement]
  | cons a t =>
    cases FindStringSubmatch ukKey content.data <;>
      cases FindStringSubmatch shareidKey content.data <;>
      simp [initialInfo]

theorem extractFields_ShareUK (sourceID : String) (content : String) (ds : List Char)
    (h : FindStringSubmatch ukKey content.data = some ds) :
    (extractFields (initialInfo sourceID) content).ShareUK = (ParseInt ds).1 := by
  unfold extractFields
  rw [h]
  cases FindStringSubmatch shareidKey content.data <;>
    by_cases hl : (FindAllStringSubmatch fsIdKey content.data).length ≥ 1 <;>
    simp [hl]

theorem extractFields_ShareID (sourceID : String) (content : String) (ds : List Char)
    (h : FindStringSubmatch shareidKey content.data = some ds) :
    (extractFields (initialInfo sourceID) content).ShareID = (ParseInt ds).1 := by
  unfold extractFields
  rw [h]
  cases FindStringSubmatch ukKey content.data <;>
    by_cases hl : (FindAllStringSubmatch fsIdKey content.data).length ≥ 1 <;>
    simp [hl]

theorem mem_extractFields_FsIds (sourceID : String) (content : String) (v : Int) :
    v ∈ (extractFields (initialInfo sourceID) content).FsIds ↔
      ∃ p ds, OccurrenceAt fsIdKey content.data p ds ∧ v = int64Value ds := by
  rw [extractFields_FsIds, mem_removeDuplicateElement, List.mem_map]
  constructor
  · rintro ⟨ds, hmem, hv⟩
    obtain ⟨p, hocc⟩ := (mem_findAll_fsId content.data ds).1 hmem
    have hdig := hocc
    obtain ⟨-, -, -, -, hne, hd⟩ := hdig
    refine ⟨p, ds, hocc, ?_⟩
    rw [← hv]; exact ParseInt_digits_value ds hne hd
  · rintro ⟨p, ds, hocc, hv⟩
    refine ⟨ds, (mem_findAll_fsId content.data ds).2 ⟨p, hocc⟩, ?_⟩
    have hdig := hocc
    obtain ⟨-, -, -, -, hne, hd⟩ := hdig
    rw [hv]; exact ParseInt_digits_value ds hne hd

/-- The three occurrences of the `fs_id` pattern in `blockThree` are at the positions 17,
27 and 37. -/
theorem blockThree_positions (p : Nat) (d : List Char)
    (h : OccurrenceAt fsIdKey blockThree.data p d) : p = 17 ∨ p = 27 ∨ p = 37 := by
  obtain ⟨n, hn⟩ := (occurrenceAt_iff_matchAt fsIdKey blockThree.data p d).1 h
  by_cases hp : p < 49
  · have hall : ∀ q < 49, (matchAt fsIdKey (blockThree.data.drop q)).isSome = true →
        q = 17 ∨ q = 27 ∨ q = 37 := by decide
    exact hall p hp (by rw [hn]; rfl)
  · rw [List.drop_eq_nil_of_le (by
      have : blockThree.data.length = 49 := by decide
      omega), matchAt_nil] at hn
    cases hn

/-- C3 (amended): when the matched block is the last script block of the body, the stored
`FsIds` have no repeated value and are, as a set, the values of all occurrences of
`"fs_id":<digits>,` (digits followed by a comma) in that block, each value capped at the
largest `int64`; a block with exactly three such occurrences, two of equal value and the
third of another value, gives exactly two entries. -/
theorem C3_FsIds_all_occurrences (pcs : BaiduPCS) (sourceID pwd : String) (docs : Document)
    (pre : List String) (content : String)
    (hreq : (pcs.PrepareShareParse sourceID pwd).2.2 = none)
    (hdoc : pcs.NewDocumentFromReader (pcs.PrepareShareParse sourceID pwd).2.1 = some docs)
    (hlast : docs.bodyScripts = pre ++ [content])
    (hm : MatchString markerLiteral content.data = true) :
    (ShareParse pcs sourceID pwd).1.FsIds.Nodup ∧
    (∀ v, v ∈ (ShareParse pcs sourceID pwd).1.FsIds ↔
      ∃ p ds, OccurrenceAt fsIdKey content.data p ds ∧ v = int64Value ds) ∧
    (∀ p1 p2 p3 d1 d2 d3,
      OccurrenceAt fsIdKey content.data p1 d1 → OccurrenceAt fsIdKey content.data p2 d2 →
      OccurrenceAt fsIdKey content.data p3 d3 →
      (∀ p d, OccurrenceAt fsIdKey content.data p d → p = p1 ∨ p = p2 ∨ p = p3) →
      int64Value d1 = int64Value d2 → int64Value d1 ≠ int64Value d3 →
      (ShareParse pcs sourceID pwd).1.FsIds.length = 2) := by
  rw [ShareParse_last_block pcs sourceID pwd docs pre content hreq hdoc hlast hm]
  have hnodup : (extractFields (initialInfo sourceID) content).FsIds.Nodup := by
    rw [extractFields_FsIds]; exact nodup_removeDuplicateElement _
  refine ⟨hnodup, mem_extractFields_FsIds sourceID content, ?_⟩
  intro p1 p2 p3 d1 d2 d3 h1 h2 h3 hall h12 h13
  have hset : (extractFields (initialInfo sourceID) content).FsIds.toFinset =
      {int64Value d1, int64Value d3} := by
    ext v
    rw [List.mem_toFinset, mem_extractFields_FsIds, Finset.mem_insert, Finset.mem_singleton]
    constructor
    · rintro ⟨p, ds, hocc, hv⟩
      rcases hall p ds hocc with hp | hp | hp
      · left; rw [hv, occurrenceAt_unique fsIdKey content.data p ds d1 hocc (hp ▸ h1)]
      · left; rw [hv, h12, occurrenceAt_unique fsIdKey content.data p ds d2 hocc (hp ▸ h2)]
      · right; rw [hv, occurrenceAt_unique fsIdKey content.data p ds d3 hocc (hp ▸ h3)]
    · rintro (hv | hv)
      · exact ⟨p1, d1, h1, hv⟩
      · exact ⟨p3, d3, h3, hv⟩
  rw [← List.toFinset_card_of_nodup hnodup, hset]
  exact Finset.card_pair h13

theorem C3_FsIds_all_occurrences_witness :
    (ShareParse (pagePCS [blockA, blockThree]) "1abc" "pw").1.FsIds.Nodup ∧
    (ShareParse (pagePCS [blockA, blockThree]) "1abc" "pw").1.FsIds.length = 2 :=
  ⟨(C3_FsIds_all_occurrences (pagePCS [blockA, blockThree]) "1abc" "pw"
      { bodyScripts := [blockA, blockThree] } [blockA] blockThree rfl rfl rfl (by decide)).1,
   (C3_FsIds_all_occurrences (pagePCS [blockA, blockThree]) "1abc" "pw"
      { bodyScripts := [blockA, blockThree] } [blockA] blockThree rfl rfl rfl (by decide)).2.2
    17 27 37 "6".data "6".data "7".data
    ((occurrenceAt_iff_matchAt fsIdKey blockThree.data 17 "6".data).2 ⟨10, by decide⟩)
    ((occurrenceAt_iff_matchAt fsIdKey blockThree.data 27 "6".data).2 ⟨10, by decide⟩)
    ((occurrenceAt_iff_matchAt fsIdKey blockThree.data 37 "7".data).2 ⟨10, by decide⟩)
    blockThree_positions (by decide) (by decide)⟩

/-- C3 as stated fails: an occurrence of `"fs_id":2` that is not followed by a comma is not
stored, and an occurrence whose digits exceed the `int64` range is stored as the largest
`int64` instead of its numeric value. -/
theorem C3_counterexample :
    ¬ (∀ v : Int, v ∈ (ShareParse (pagePCS [blockNoComma]) "1abc" "pw").1.FsIds ↔
        ∃ p ds, SpecOccurrenceAt fsIdKey blockNoComma.data p ds ∧ v = (decimalValue ds : Int)) ∧
    ¬ (∀ v : Int, v ∈ (ShareParse (pagePCS [blockBigFsId]) "1abc" "pw").1.FsIds ↔
        ∃ p ds, SpecOccurrenceAt fsIdKey blockBigFsId.data p ds ∧ v = (decimalValue ds : Int)) := by
  constructor
  · intro h
    have hmem := (h 2).2 ⟨27, "2".data, ⟨"yunData.setData(\x7b\"fs_id\":1,".data, "\x7d)".data,
      by decide, by decide, by decide, by decide, by
        intro x rest hx
        have hx' : x = Char.ofNat 125 := (List.cons.inj hx).1.symm
        rw [hx']; decide⟩, by decide⟩
    have hval : (ShareParse (pagePCS [blockNoComma]) "1abc" "pw").1.FsIds = [1] := by decide
    rw [hval] at hmem
    revert hmem
    decide
  · intro h
    have hmem := (h 9223372036854775808).2 ⟨17, "9223372036854775808".data,
      ⟨"yunData.setData(\x7b".data, ",\x7d)".data,
      by decide, by decide, by decide, by decide, by
        intro x rest hx
        have hx' : x = Char.ofNat 44 := (List.cons.inj hx).1.symm
        rw [hx']; decide⟩, by decide⟩
    have hval : (ShareParse (pagePCS [blockBigFsId]) "1abc" "pw").1.FsIds =
        [9223372036854775807] := by decide
    rw [hval] at hmem
    revert hmem
    decide

/-- C9 (amended): when the matched block is the last script block of the body, `ShareParse`
returns no error, and a captured digit string that `ParseInt` cannot parse (it can only
exceed the `int64` range) is stored as the largest `int64`, 9223372036854775807: in
`ShareUK`, in `ShareID`, and as an entry of `FsIds`. -/
theorem C9_parse_failure_stores_max (pcs : BaiduPCS) (sourceID pwd : String) (docs : Document)
    (pre : List String) (content : String)
    (hreq : (pcs.PrepareShareParse sourceID pwd).2.2 = none)
    (hdoc : pcs.NewDocumentFromReader (pcs.PrepareShareParse sourceID pwd).2.1 = some docs)
    (hlast : docs.bodyScripts = pre ++ [content])
    (hm : MatchString markerLiteral content.data = true) :
    (ShareParse pcs sourceID pwd).2 = none ∧
    (∀ ds, FindStringSubmatch ukKey content.data = some ds → (ParseInt ds).2 ≠ none →
      (ShareParse pcs sourceID pwd).1.ShareUK = 9223372036854775807) ∧
    (∀ ds, FindStringSubmatch shareidKey content.data = some ds → (ParseInt ds).2 ≠ none →
      (ShareParse pcs sourceID pwd).1.ShareID = 9223372036854775807) ∧
    (∀ ds ∈ FindAllStringSubmatch fsIdKey content.data, (ParseInt ds).2 ≠ none →
      (ParseInt ds).1 = 9223372036854775807 ∧
      (9223372036854775807 : Int) ∈ (ShareParse pcs sourceID pwd).1.FsIds) := by
  rw [ShareParse_last_block pcs sourceID pwd docs pre content hreq hdoc hlast hm]
  refine ⟨rfl, ?_, ?_, ?_⟩
  · intro ds hds herr
    obtain ⟨hne, hd⟩ := findStringSubmatch_digits ukKey content.data ds hds
    rw [extractFields_ShareUK sourceID content ds hds]
    exact (ParseInt_digits_error ds hne hd herr).1
  · intro ds hds herr
    obtain ⟨hne, hd⟩ := findStringSubmatch_digits shareidKey content.data ds hds
    rw [extractFields_ShareID sourceID content ds hds]
    exact (ParseInt_digits_error ds hne hd herr).1
  · intro ds hds herr
    obtain ⟨p, hocc⟩ := (mem_findAll_fsId content.data ds).1 hds
    have hdig := hocc
    obtain ⟨-, -, -, -, hne, hd⟩ := hdig
    have hv := (ParseInt_digits_error ds hne hd herr).1
    refine ⟨hv, ?_⟩
    rw [extractFields_FsIds, mem_removeDuplicateElement, List.mem_map]
    exact ⟨ds, hds, hv⟩

theorem C9_parse_failure_stores_max_witness :
    (ShareParse (pagePCS [blockOverflow]) "1abc" "pw").2 = none ∧
    (ShareParse (pagePCS [blockOverflow]) "1abc" "pw").1.ShareUK = 9223372036854775807 :=
  ⟨(C9_parse_failure_stores_max (pagePCS [blockOverflow]) "1abc" "pw"
      { bodyScripts := [blockOverflow] } [] blockOverflow rfl rfl rfl (by decide)).1,
   (C9_parse_failure_stores_max (pagePCS [blockOverflow]) "1abc" "pw"
      { bodyScripts := [blockOverflow] } [] blockOverflow rfl rfl rfl (by decide)).2.1
      "9223372036854775808".data (by decide) (by decide)⟩

/-- C9 as stated fails: the digits captured for `"uk"`, `"shareid"` and `"fs_id"` all exceed
the `int64` range, `ParseInt` reports a range error for each, and the stored values are
9223372036854775807, not zero. -/
theorem C9_counterexample :
    FindStringSubmatch ukKey blockOverflow.data = some "9223372036854775808".data ∧
    (ParseInt "9223372036854775808".data).2 = some NumError.ErrRange ∧
    (ParseInt "99999999999999999999".data).2 = some NumError.ErrRange ∧
    (ParseInt "18446744073709551616".data).2 = some NumError.ErrRange ∧
    ShareParse (pagePCS [blockOverflow]) "1abc" "pw" =
      ({ SourceID := "1abc", ShareID := 9223372036854775807, FsIds := [9223372036854775807],
         ShareUK := 9223372036854775807 }, none) ∧
    (ShareParse (pagePCS [blockOverflow]) "1abc" "pw").1.ShareUK ≠ 0 := by
  refine ⟨by decide, by decide, by decide, by decide, by decide, by decide⟩

/-- When the last script block of the body does not carry the marker, `ShareParse` returns
the `ErrShareLinkNotFound` error and extracts nothing, whatever the earlier script blocks
are. -/
theorem ShareParse_trailing_block (pcs : BaiduPCS) (sourceID pwd : String) (docs : Document)
    (pre : List String) (last : String)
    (hreq : (pcs.PrepareShareParse sourceID pwd).2.2 = none)
    (hdoc : pcs.NewDocumentFromReader (pcs.PrepareShareParse sourceID pwd).2.1 = some docs)
    (hlast : docs.bodyScripts = pre ++ [last])
    (hm : MatchString markerLiteral last.data = false) :
    ∃ e, ShareParse pcs sourceID pwd = (initialInfo sourceID, some e) ∧
      e.ErrType = ErrType.ErrTypeOthers ∧ e.Err = some ErrShareLinkNotFound := by
  have hs := scanScripts_last_no_match pre last hm
  rw [← hlast] at hs
  refine ⟨{ NewPanErrorInfo pcs.OperationShareVarify with
    ErrType := ErrType.ErrTypeOthers, Err := some ErrShareLinkNotFound }, ?_, rfl, rfl⟩
  simp [ShareParse, hreq, hdoc, hs, initialInfo]

end Baidupcs
